import Mathlib

/-!
Verification of the `git-credential-relay` server (`src/main.py`).

The program is embedded shallowly:

* A request/response mapping (`dict[str, str]` in the source, insertion
  ordered, keys unique) is `KV`, an association list, with `dinsert`
  mirroring Python dict assignment (update in place, else append).
* The byte stream of a connection is modelled as the list of text lines
  `readline` yields (each including its trailing newline); the end of the
  list is end-of-stream.
* Python exceptions are modelled with `Except Exc`; an operation that may
  raise is given its outcome as an `Except Exc` value, and the code's
  `try`/`except` structure is reproduced by the `match`es on those values.
  The response write at the connection boundary is modelled as pure.
* External effects (the peer-credential socket option, `psutil` name
  lookup, operator input, the two `git credential` subprocesses) are inputs
  of the per-connection environment `ConnEnv`; invocations of the two
  credential delegates are recorded in the `calls` field of the outcome,
  and trust-gate prompts in the `prompts` field.
-/

/-- A Python string-to-string dict as an insertion-ordered association list. -/
abbrev KV := List (String × String)

/-- Python dict assignment `kv[k] = v`: replace in place, else append. -/
def dinsert : KV → String → String → KV
  | [], k, v => [(k, v)]
  | (k₀, v₀) :: rest, k, v =>
    if k₀ = k then (k, v) :: rest else (k₀, v₀) :: dinsert rest k v

/-- Python `dict.pop(key, ...)`'s removal effect on the mapping. -/
def kvErase (key : String) (kv : KV) : KV :=
  kv.filter (fun p => p.1 ≠ key)

/-- `s.partition('=')` on the character list: split at the first `=`;
without any `=` the whole input is the key and the value is empty. -/
def partEq : List Char → List Char × List Char
  | [] => ([], [])
  | c :: cs =>
    if c = '=' then ([], cs)
    else
      let p := partEq cs
      (c :: p.1, p.2)

/-- `k, _, v = s.partition('=')` as used by `read_kv` and the fill parser. -/
def partitionEq (s : String) : String × String :=
  let p := partEq s.data
  (String.mk p.1, String.mk p.2)

/-- `str.rstrip(c)` for a single character: drop every trailing `c`. -/
def rstripL (c : Char) (l : List Char) : List Char :=
  (l.reverse.dropWhile (fun x => x = c)).reverse

/-- `line.rstrip('\n')`. -/
def rstripNL (s : String) : String :=
  String.mk (rstripL '\n' s.data)

/-- `f'{host}/{path}'.rstrip('/')`'s stripping step. -/
def rstripSlash (s : String) : String :=
  String.mk (rstripL '/' s.data)

/-- `read_kv` (src/main.py:46-57): consume lines until end-of-stream or a
blank line, split each at the first `=`, assign into the dict. -/
def read_kv_aux : List String → KV → KV
  | [], kv => kv
  | line :: rest, kv =>
    if line = "" then kv
    else
      let s := rstripNL line
      if s = "" then kv
      else
        let p := partitionEq s
        read_kv_aux rest (dinsert kv p.1 p.2)

/-- `read_kv` starting from the empty dict. -/
def read_kv (lines : List String) : KV := read_kv_aux lines []

/-- `write_close_kv` (src/main.py:60-65): the bytes written before the
stream is flushed and closed — one `key=value` line per pair, then a
blank line. -/
def write_close_kv (kv : KV) : String :=
  String.join (kv.map (fun p => p.1 ++ "=" ++ p.2 ++ "\n")) ++ "\n"

/-- The lines of a wire block built from the pairs `ps`: each pair as a
`key=value` line with its newline, then the terminating blank line. -/
def wire_body_lines (ps : KV) : List String :=
  ps.map (fun p => p.1 ++ "=" ++ p.2 ++ "\n")

/-- A full wire block, as the line sequence `read_kv` would see. -/
def wire_lines (ps : KV) : List String :=
  wire_body_lines ps ++ ["\n"]

/-- Exceptions the modelled operations can raise. -/
inductive Exc where
  | osError
  | noSuchProcess
  | accessDenied
  | eofError
  | generic
deriving DecidableEq, Repr

/-- `get_peer_pid` (src/main.py:21-32). Its platform branch is modelled by
its outcome `fetch`: `.ok (some pid)` for a successful socket-option read,
`.ok none` for an unsupported platform (the fall-through `return None`),
`.error e` for a raised exception. Only `OSError` is caught. -/
def get_peer_pid (fetch : Except Exc (Option Int)) : Except Exc (Option Int) :=
  match fetch with
  | .error .osError => .ok none
  | x => x

/-- `get_peer_info` (src/main.py:35-43). `procName` is the outcome of
`psutil.Process(pid).name()`; only `psutil.NoSuchProcess` is caught. -/
def get_peer_info (fetch : Except Exc (Option Int))
    (procName : Int → Except Exc String) : Except Exc String :=
  match get_peer_pid fetch with
  | .error e => .error e
  | .ok none => .ok "?"
  | .ok (some pid) =>
    match procName pid with
    | .ok name => .ok (name ++ " (pid " ++ toString pid ++ ")")
    | .error .noSuchProcess => .ok ("?" ++ " (pid " ++ toString pid ++ ")")
    | .error e => .error e

/-- The target descriptor built by `confirm_get` (src/main.py:97-106). -/
def confirm_get_target (req : KV) : String :=
  let proto := (List.lookup "protocol" req).getD "?"
  let host := (List.lookup "host" req).getD "?"
  let path := (List.lookup "path" req).getD ""
  let username := (List.lookup "username" req).getD ""
  let target := proto ++ "://" ++ (if username ≠ "" then username ++ "@" else "")
  target ++ rstripSlash (host ++ "/" ++ path)

/-- The whitespace characters `str.strip()` removes. -/
def pyWhitespace (c : Char) : Bool :=
  c = ' ' || c = '\t' || c = '\n' || c = '\r' || c = '\x0b' || c = '\x0c'

/-- Python `str.strip()`: drop leading and trailing whitespace. -/
def pyStrip (s : String) : String :=
  String.mk (((s.data.dropWhile pyWhitespace).reverse.dropWhile pyWhitespace).reverse)

/-- Python `str.lower()` (character-wise lowercasing). -/
def pyLower (s : String) : String :=
  String.mk (s.data.map Char.toLower)

/-- The acceptance test of `confirm_get` (src/main.py:109-110):
`ans.strip().lower() in {'y', 'yes'}`. -/
def confirm_get_answer (ans : String) : Bool :=
  let s := pyLower (pyStrip ans)
  s = "y" || s = "yes"

/-- The `subprocess.run` outcome of a completed `git credential fill`
invocation: captured standard-output lines and the ignored exit status. -/
structure FillResult where
  stdout : List String
  returncode : Int
deriving DecidableEq, Repr

/-- The parsing half of `git_credential_fill` (src/main.py:77-84): split
each output line at the first `=`, skip lines whose key is empty. -/
def git_credential_fill (stdoutLines : List String) : KV :=
  stdoutLines.foldl
    (fun resp line =>
      let p := partitionEq line
      if p.1 ≠ "" then dinsert resp p.1 p.2 else resp)
    []

/-- The serialization both delegates feed to their subprocess
(src/main.py:71 and 90): `'\n'.join(f'{k}={v}' ...) + '\n\n'`. -/
def delegate_input (req : KV) : String :=
  String.intercalate "\n" (req.map (fun p => p.1 ++ "=" ++ p.2)) ++ "\n\n"

/-- A completed invocation of one of the two credential delegates,
recording the mapping it was invoked with. -/
inductive DelegateCall where
  | fill (req : KV)
  | approve (req : KV)
deriving DecidableEq, Repr

/-- What one served connection produces: the response block written to the
peer, the delegate invocations made, and the trust-gate prompts shown
(peer description and target descriptor). -/
structure ConnOutcome where
  response : KV
  calls : List DelegateCall
  prompts : List (String × String)
deriving DecidableEq, Repr

/-- Outcomes of the external operations the dispatch may perform. -/
structure DispatchEnv where
  ansRes : Except Exc String
  fillRes : Except Exc FillResult
  approveRes : Except Exc Int

/-- The dispatch section of `main` (src/main.py:140-158): pop `op`
(default `get`) and branch. In the `get` branch `confirm_get` prints the
prompt and reads the operator's answer; the `fill`/`approve` delegate runs
only where the source invokes it, and an `.error` at any step is the
exception propagating out of that statement. -/
def dispatch (req₀ : KV) (peer : String) (env : DispatchEnv) : Except Exc ConnOutcome :=
  let op := (List.lookup "op" req₀).getD "get"
  let req := kvErase "op" req₀
  if op = "erase" then
    .ok ⟨[("error", "erase disabled")], [], []⟩
  else if op = "get" then
    let target := confirm_get_target req
    match env.ansRes with
    | .error e => .error e
    | .ok ans =>
      if confirm_get_answer ans then
        match env.fillRes with
        | .error e => .error e
        | .ok fr => .ok ⟨git_credential_fill fr.stdout, [.fill req], [(peer, target)]⟩
      else
        .ok ⟨[("error", "user denied")], [], [(peer, target)]⟩
  else if op = "store" then
    match env.approveRes with
    | .error e => .error e
    | .ok _ => .ok ⟨[], [.approve req], []⟩
  else
    .ok ⟨[("error", "unknown op: " ++ op)], [], []⟩

/-- Everything one accepted connection depends on: the peer-credential
fetch, the process-name lookup, the request lines read from the stream
(`.error` if reading raised), and the dispatch-stage outcomes. -/
structure ConnEnv where
  pidFetch : Except Exc (Option Int)
  procName : Int → Except Exc String
  readRes : Except Exc (List String)
  ansRes : Except Exc String
  fillRes : Except Exc FillResult
  approveRes : Except Exc Int

/-- The body of the `try` block in `main` (src/main.py:137-158): resolve
peer identity, decode the request, dispatch. -/
def try_conn (env : ConnEnv) : Except Exc ConnOutcome :=
  match get_peer_info env.pidFetch env.procName with
  | .error e => .error e
  | .ok peer =>
    match env.readRes with
    | .error e => .error e
    | .ok lines => dispatch (read_kv lines) peer ⟨env.ansRes, env.fillRes, env.approveRes⟩

/-- One iteration of the accept loop (src/main.py:133-161): the `except
Exception` handler turns any raised exception into the
`internal server error` response. -/
def handle_conn (env : ConnEnv) : ConnOutcome :=
  match try_conn env with
  | .ok out => out
  | .error _ => ⟨[("error", "internal server error")], [], []⟩

/-- The serve loop over a finite prefix of accepted connections: every
accepted connection is handled, each after the previous one. -/
def serve (envs : List ConnEnv) : List ConnOutcome :=
  envs.map handle_conn

/-- The target descriptor as the specification describes it:
`protocol://[username@]host/path` with the separator dropped exactly when
`path` is empty. Used to compare the specification's wording against
`confirm_get_target`. -/
def confirm_get_target_spec (req : KV) : String :=
  let proto := (List.lookup "protocol" req).getD "?"
  let host := (List.lookup "host" req).getD "?"
  let path := (List.lookup "path" req).getD ""
  let username := (List.lookup "username" req).getD ""
  proto ++ "://" ++ (if username ≠ "" then username ++ "@" else "") ++
    host ++ (if path = "" then "" else "/" ++ path)

/-- A connection whose request read raises an `OSError` after peer
identity resolved to `?`. -/
def envReadFails : ConnEnv :=
  ⟨.ok none, fun _ => .ok "git", .error .osError, .ok "y", .ok ⟨[], 0⟩, .ok 0⟩

/-- A connection whose peer-name lookup raises `AccessDenied`; everything
else succeeds. -/
def envNameAccessDenied : ConnEnv :=
  ⟨.ok (some 5), fun _ => .error .accessDenied, .ok [], .ok "y", .ok ⟨[], 0⟩, .ok 0⟩

theorem data_append (s t : String) : (s ++ t).data = s.data ++ t.data := rfl

theorem mk_data (s : String) : String.mk s.data = s := rfl

theorem string_ext {s t : String} (h : s.data = t.data) : s = t := by
  cases s
  cases t
  exact congrArg String.mk h

theorem string_ne_of_data_ne {s t : String} (h : s.data ≠ t.data) : s ≠ t :=
  fun hs => h (congrArg String.data hs)

/-- Claim C4: for every request whose `op` key has value `erase`, the
response is exactly `{error: "erase disabled"}` and neither the fill nor
the approve delegate is invoked, regardless of all other fields and of the
outcomes of every other external operation. -/
theorem erase_always_disabled_c4 (req₀ : KV) (peer : String) (env : DispatchEnv)
    (hop : List.lookup "op" req₀ = some "erase") :
    dispatch req₀ peer env = .ok ⟨[("error", "erase disabled")], [], []⟩ := by
  simp [dispatch, hop]

/-- Witness for C4 at a concrete request carrying extra fields and an
environment in which every external operation would raise. -/
theorem erase_always_disabled_c4_witness :
    List.lookup "op" [("op", "erase"), ("host", "h")] = some "erase" ∧
      dispatch [("op", "erase"), ("host", "h")] "peer"
          ⟨.error .eofError, .error .generic, .error .generic⟩ =
        .ok ⟨[("error", "erase disabled")], [], []⟩ :=
  ⟨rfl, erase_always_disabled_c4 _ _ _ rfl⟩

/-- Claim C5: for every request whose `op` key has value `store`, the
approve delegate is invoked with exactly the request mapping minus the
`op` key, and the response is the empty mapping regardless of the
delegate's exit status (its output is discarded unread by the source). -/
theorem store_approves_c5 (req₀ : KV) (peer : String) (env : DispatchEnv) (rc : Int)
    (hop : List.lookup "op" req₀ = some "store")
    (happ : env.approveRes = .ok rc) :
    dispatch req₀ peer env = .ok ⟨[], [.approve (kvErase "op" req₀)], []⟩ := by
  simp [dispatch, hop, happ]

/-- Witness for C5 at a concrete request, with a nonzero exit status. -/
theorem store_approves_c5_witness :
    List.lookup "op" [("op", "store"), ("host", "h"), ("password", "s")] = some "store" ∧
      dispatch [("op", "store"), ("host", "h"), ("password", "s")] "peer"
          ⟨.error .eofError, .error .generic, .ok 7⟩ =
        .ok ⟨[], [.approve [("host", "h"), ("password", "s")]], []⟩ :=
  ⟨rfl, store_approves_c5 _ _ _ 7 rfl rfl⟩

/-- Claim C2: for every request dispatched as op=`get` whose operator
answer, after trimming surrounding whitespace and lowercasing, is neither
`y` nor `yes` (so in particular for the empty answer), the response is
exactly `{error: "user denied"}` and the fill delegate is never invoked
(the outcome records no delegate call). -/
theorem get_denied_c2 (req₀ : KV) (peer : String) (env : DispatchEnv) (ans : String)
    (hop : (List.lookup "op" req₀).getD "get" = "get")
    (hans : env.ansRes = .ok ans)
    (hdeny : pyLower (pyStrip ans) ≠ "y" ∧ pyLower (pyStrip ans) ≠ "yes") :
    dispatch req₀ peer env =
      .ok ⟨[("error", "user denied")], [],
           [(peer, confirm_get_target (kvErase "op" req₀))]⟩ := by
  have hc : confirm_get_answer ans = false := by
    simp [confirm_get_answer, hdeny.1, hdeny.2]
  simp [dispatch, hop, hans, hc]

/-- Witness for C2: a request with no `op` key and the empty answer. -/
theorem get_denied_c2_witness :
    (pyLower (pyStrip "") ≠ "y" ∧ pyLower (pyStrip "") ≠ "yes") ∧
      dispatch [("host", "h")] "peer" ⟨.ok "", .error .generic, .error .generic⟩ =
        .ok ⟨[("error", "user denied")], [],
             [("peer", confirm_get_target (kvErase "op" [("host", "h")]))]⟩ :=
  ⟨by decide, get_denied_c2 _ _ _ "" rfl rfl (by decide)⟩

/-- Claim C3: for every request dispatched as op=`get` with an approving
answer and a completed fill invocation, the response equals exactly the
mapping parsed from the fill command's output (lines without a non-empty
key skipped), whatever the exit status, and the fill delegate is invoked
with the request minus its `op` key. -/
theorem get_approved_c3 (req₀ : KV) (peer : String) (env : DispatchEnv)
    (ans : String) (fr : FillResult)
    (hop : (List.lookup "op" req₀).getD "get" = "get")
    (hans : env.ansRes = .ok ans)
    (hyes : confirm_get_answer ans = true)
    (hfill : env.fillRes = .ok fr) :
    dispatch req₀ peer env =
      .ok ⟨git_credential_fill fr.stdout, [.fill (kvErase "op" req₀)],
           [(peer, confirm_get_target (kvErase "op" req₀))]⟩ := by
  simp [dispatch, hop, hans, hyes, hfill]

/-- Witness for C3: explicit op=`get`, answer `y`, a fill delegate that
exits with status 1 after printing nothing — the response is the empty
mapping. -/
theorem get_approved_c3_witness :
    confirm_get_answer "y" = true ∧
      dispatch [("op", "get"), ("host", "h")] "peer"
          ⟨.ok "y", .ok ⟨[], 1⟩, .error .generic⟩ =
        .ok ⟨[], [.fill [("host", "h")]],
             [("peer", confirm_get_target (kvErase "op" [("op", "get"), ("host", "h")]))]⟩ :=
  ⟨rfl, get_approved_c3 _ _ _ "y" ⟨[], 1⟩ rfl rfl rfl rfl⟩

/-- Claim C1: any exception raised while resolving peer identity, decoding
the request, or dispatching is caught at the connection boundary, the peer
receives exactly `{error: "internal server error"}`, and the connections
after the failing one are served exactly as they would be on their own —
the failure never ends the serve loop. -/
theorem connection_failure_boundary_c1 (env : ConnEnv) (e : Exc)
    (envs : List ConnEnv) (h : try_conn env = .error e) :
    handle_conn env = ⟨[("error", "internal server error")], [], []⟩ ∧
      serve (env :: envs) =
        ⟨[("error", "internal server error")], [], []⟩ :: serve envs := by
  have hh : handle_conn env = ⟨[("error", "internal server error")], [], []⟩ := by
    simp [handle_conn, h]
  exact ⟨hh, by simp [serve, hh]⟩

/-- Witness for C1: a connection whose request read raises an `OSError`. -/
theorem connection_failure_boundary_c1_witness :
    try_conn envReadFails = .error .osError ∧
      handle_conn envReadFails = ⟨[("error", "internal server error")], [], []⟩ ∧
      serve [envReadFails] = [⟨[("error", "internal server error")], [], []⟩] :=
  ⟨rfl,
   (connection_failure_boundary_c1 envReadFails .osError [] rfl).1,
   (connection_failure_boundary_c1 envReadFails .osError [] rfl).2⟩

/-- Counterexample to claim C8: a process-name lookup that raises
`AccessDenied` for an obtained PID is not substituted by `?` — only
`NoSuchProcess` is caught — and the failure is surfaced to the peer as
`{error: "internal server error"}`. -/
theorem peer_identity_c8_counterexample :
    get_peer_info (.ok (some 5)) (fun _ => .error .accessDenied) =
        .error .accessDenied ∧
      get_peer_info (.ok (some 5)) (fun _ => .error .accessDenied) ≠
        .ok "? (pid 5)" ∧
      handle_conn envNameAccessDenied =
        ⟨[("error", "internal server error")], [], []⟩ :=
  ⟨rfl, fun h => Except.noConfusion h, rfl⟩

/-- Claim C8 as amended: failure to obtain the peer's PID (an `OSError`
from the socket option, or an unsupported platform) yields the display
string `?`; a name lookup failing with `NoSuchProcess` keeps the PID and
substitutes `?` for the name; any other name-lookup failure propagates to
the connection boundary instead of degrading. -/
theorem peer_identity_best_effort_c8 (procName : Int → Except Exc String)
    (pid : Int) :
    get_peer_info (.error .osError) procName = .ok "?" ∧
      get_peer_info (.ok none) procName = .ok "?" ∧
      (procName pid = .error .noSuchProcess →
        get_peer_info (.ok (some pid)) procName =
          .ok ("?" ++ " (pid " ++ toString pid ++ ")")) := by
  refine ⟨rfl, rfl, fun h => ?_⟩
  simp [get_peer_info, get_peer_pid, h]

/-- Witness for the amended C8 at PID 7 with a vanished process. -/
theorem peer_identity_best_effort_c8_witness :
    get_peer_info (.ok (some 7)) (fun _ => .error .noSuchProcess) = .ok "? (pid 7)" :=
  (peer_identity_best_effort_c8 (fun _ => .error .noSuchProcess) 7).2.2 rfl

/-- Claim C9: a connection delivering no bytes decodes to the empty
mapping, the op defaults to `get`, the trust gate is prompted with the
target descriptor `?://?` whether the operator approves or denies, and on
approval the fill delegate is invoked with the empty mapping. -/
theorem empty_stream_c9 (peer : String) (env : DispatchEnv) (ans : String)
    (fr : FillResult) (hans : env.ansRes = .ok ans) :
    read_kv [] = [] ∧
      (List.lookup "op" (read_kv [])).getD "get" = "get" ∧
      (confirm_get_answer ans = false →
        dispatch (read_kv []) peer env =
          .ok ⟨[("error", "user denied")], [], [(peer, "?://?")]⟩) ∧
      (confirm_get_answer ans = true → env.fillRes = .ok fr →
        dispatch (read_kv []) peer env =
          .ok ⟨git_credential_fill fr.stdout, [.fill []], [(peer, "?://?")]⟩) := by
  have h0 : read_kv [] = [] := rfl
  have hk : kvErase "op" [] = [] := rfl
  have ht : confirm_get_target [] = "?://?" := rfl
  refine ⟨rfl, rfl, fun hno => ?_, fun hyes hfill => ?_⟩
  · simp [dispatch, h0, hk, hans, hno, ht]
  · simp [dispatch, h0, hk, hans, hyes, hfill, ht]

/-- Witness for C9: empty stream, operator answers `y`, fill prints one
credential line. -/
theorem empty_stream_c9_witness :
    dispatch (read_kv []) "peer"
        ⟨.ok "y", .ok ⟨["password=s"], 0⟩, .error .generic⟩ =
      .ok ⟨git_credential_fill ["password=s"], [.fill []], [("peer", "?://?")]⟩ :=
  (empty_stream_c9 "peer" _ "y" ⟨["password=s"], 0⟩ rfl).2.2.2 rfl rfl

/-- Claim C10: a request that contains the `op` key with empty value is
not dispatched as the default `get`: it is answered with exactly
`{error: "unknown op: "}` and no delegate or prompt is involved; the
default `get` dispatch applies when the `op` key is entirely absent (shown
through the denial response of the trust gate). -/
theorem empty_op_not_default_c10 (req₀ : KV) (peer : String) (env : DispatchEnv) :
    (List.lookup "op" req₀ = some "" →
      dispatch req₀ peer env = .ok ⟨[("error", "unknown op: ")], [], []⟩) ∧
      (List.lookup "op" req₀ = none → ∀ ans, env.ansRes = .ok ans →
        confirm_get_answer ans = false →
        dispatch req₀ peer env =
          .ok ⟨[("error", "user denied")], [],
               [(peer, confirm_get_target (kvErase "op" req₀))]⟩) := by
  constructor
  · intro h
    simp [dispatch, h]
  · intro h ans hans hno
    simp [dispatch, h, hans, hno]

/-- Witness for C10: the request decoded from the single line `op=`. -/
theorem empty_op_not_default_c10_witness :
    read_kv ["op=\n", "\n"] = [("op", "")] ∧
      dispatch (read_kv ["op=\n", "\n"]) "peer"
          ⟨.error .generic, .error .generic, .error .generic⟩ =
        .ok ⟨[("error", "unknown op: ")], [], []⟩ :=
  ⟨rfl, (empty_op_not_default_c10 (read_kv ["op=\n", "\n"]) "peer" _).1 rfl⟩

theorem rstripL_eq_self {c : Char} {l : List Char} (h : l.getLast? ≠ some c) :
    rstripL c l = l := by
  have hd : l.reverse.dropWhile (fun x => x = c) = l.reverse := by
    rw [← List.head?_reverse] at h
    cases hr : l.reverse with
    | nil => rfl
    | cons x xs =>
      have hx : (x = c) = False := by
        rw [hr] at h
        simp only [List.head?_cons, ne_eq, Option.some.injEq] at h
        simp [h]
      simp [List.dropWhile_cons, hx]
  rw [rstripL, hd, List.reverse_reverse]

theorem rstripL_append_same (c : Char) (l : List Char) :
    rstripL c (l ++ [c]) = rstripL c l := by
  simp [rstripL, List.reverse_append, List.dropWhile_cons]

theorem target_eq_of_no_trailing_slash (proto host path uname : String)
    (hpath : path.data.getLast? ≠ some '/')
    (hhost : path = "" → host.data.getLast? ≠ some '/') :
    proto ++ "://" ++ (if uname ≠ "" then uname ++ "@" else "") ++
        rstripSlash (host ++ "/" ++ path) =
      proto ++ "://" ++ (if uname ≠ "" then uname ++ "@" else "") ++
        host ++ (if path = "" then "" else "/" ++ path) := by
  apply string_ext
  by_cases hpe : path = ""
  · subst hpe
    simp only [data_append, rstripSlash]
    rw [List.append_nil, rstripL_append_same, rstripL_eq_self (hhost rfl)]
    simp
  · have hpd : path.data ≠ [] := by
      intro hd
      exact hpe (by rw [← mk_data path, hd])
    simp only [data_append, rstripSlash, if_neg hpe]
    have hr : rstripL '/' (host.data ++ ['/'] ++ path.data) =
        host.data ++ ['/'] ++ path.data := by
      apply rstripL_eq_self
      rw [List.getLast?_append_of_ne_nil _ hpd]
      exact hpath
    rw [hr]
    simp [List.append_assoc]

/-- Counterexample to claim C7: for the request `{path: "a/"}` the code
strips the trailing `/` of the path itself, so the descriptor is
`?://?/a` and not the `?://?/a/` the claimed `protocol://host/path`
shape (separator trimmed only for empty path) prescribes. -/
theorem target_descriptor_c7_counterexample :
    confirm_get_target [("path", "a/")] = "?://?/a" ∧
      confirm_get_target_spec [("path", "a/")] = "?://?/a/" ∧
      confirm_get_target [("path", "a/")] ≠ confirm_get_target_spec [("path", "a/")] :=
  ⟨rfl, rfl, by decide⟩

/-- Claim C7 as amended: the trust gate's target descriptor equals
`protocol://[username@]host/path` — username segment omitted when the
username is absent or empty, missing protocol/host shown as `?`, missing
path/username as the empty string, separator trimmed exactly when path is
empty — provided the component the descriptor ends in (the path when
nonempty, else the host) does not itself end in `/`; the code strips all
trailing `/` characters of `host/path`. -/
theorem target_descriptor_c7 (req : KV)
    (hpath : ((List.lookup "path" req).getD "").data.getLast? ≠ some '/')
    (hhost : (List.lookup "path" req).getD "" = "" →
      ((List.lookup "host" req).getD "?").data.getLast? ≠ some '/') :
    confirm_get_target req = confirm_get_target_spec req := by
  simp only [confirm_get_target, confirm_get_target_spec]
  exact target_eq_of_no_trailing_slash _ _ _ _ hpath hhost

/-- Witness for the amended C7 on a full request. -/
theorem target_descriptor_c7_witness :
    confirm_get_target
        [("protocol", "https"), ("host", "example.com"),
         ("path", "repo.git"), ("username", "alice")] =
      confirm_get_target_spec
        [("protocol", "https"), ("host", "example.com"),
         ("path", "repo.git"), ("username", "alice")] :=
  target_descriptor_c7 _ (by decide) (by decide)

theorem partEq_append (k v : List Char) (hk : '=' ∉ k) :
    partEq (k ++ '=' :: v) = (k, v) := by
  induction k with
  | nil => simp [partEq]
  | cons c cs ih =>
    have hc : c ≠ '=' := fun h => hk (h ▸ List.mem_cons_self c cs)
    have ih2 := ih (fun h => hk (List.mem_cons_of_mem c h))
    simp [partEq, hc, ih2]

theorem dropWhile_eq_self_of_not_mem {c : Char} {l : List Char} (h : c ∉ l) :
    l.dropWhile (fun x => x = c) = l := by
  induction l with
  | nil => rfl
  | cons x xs _ =>
    have hx : ¬ x = c := by
      intro he
      exact h (by simp [he])
    simp [List.dropWhile_cons, hx]

theorem rstripL_eq_self_of_not_mem {c : Char} {l : List Char} (h : c ∉ l) :
    rstripL c l = l := by
  rw [rstripL, dropWhile_eq_self_of_not_mem (by simpa using h), List.reverse_reverse]

theorem dinsert_append {acc : KV} {k : String} (v : String)
    (h : k ∉ acc.map Prod.fst) : dinsert acc k v = acc ++ [(k, v)] := by
  induction acc with
  | nil => rfl
  | cons q rest ih =>
    have hq : q.1 ≠ k := by
      intro he
      exact h (by simp [he])
    have ih2 := ih (fun hm => h (List.mem_cons_of_mem _ hm))
    cases q with
    | mk k₀ v₀ => simp only [dinsert, if_neg hq, ih2, List.cons_append]

theorem join_concat (l : List String) (s : String) :
    String.join (l ++ [s]) = String.join l ++ s := by
  simp [String.join, List.foldl_append]

theorem read_kv_aux_wire (ps : KV) :
    ∀ acc : KV,
      (∀ p ∈ ps, '=' ∉ p.1.data ∧ '\n' ∉ p.1.data ∧ '\n' ∉ p.2.data) →
      (acc.map Prod.fst ++ ps.map Prod.fst).Nodup →
      read_kv_aux (wire_lines ps) acc = acc ++ ps := by
  induction ps with
  | nil =>
    intro acc _ _
    rw [List.append_nil]
    rfl
  | cons q ps ih =>
    intro acc hval hnd
    obtain ⟨k, v⟩ := q
    obtain ⟨hkeq, hknl, hvnl⟩ := hval (k, v) (List.mem_cons_self _ _)
    have hldata : (k ++ "=" ++ v ++ "\n").data =
        (k.data ++ '=' :: v.data) ++ ['\n'] := by
      simp [data_append]
    have hnlmem : '\n' ∉ k.data ++ '=' :: v.data := by
      intro hm
      rcases List.mem_append.mp hm with h1 | h1
      · exact hknl h1
      · rcases List.mem_cons.mp h1 with h2 | h2
        · exact absurd h2 (by decide)
        · exact hvnl h2
    have hline_ne : (k ++ "=" ++ v ++ "\n") ≠ "" := by
      apply string_ne_of_data_ne
      rw [hldata]
      simp
    have hstrip : rstripNL (k ++ "=" ++ v ++ "\n") =
        String.mk (k.data ++ '=' :: v.data) := by
      rw [rstripNL, hldata, rstripL_append_same,
        rstripL_eq_self_of_not_mem hnlmem]
    have hs_ne : String.mk (k.data ++ '=' :: v.data) ≠ "" := by
      apply string_ne_of_data_ne
      simp
    have hpart : partitionEq (String.mk (k.data ++ '=' :: v.data)) = (k, v) := by
      rw [partitionEq]
      simp only [partEq_append k.data v.data hkeq]
    have hk_notin : k ∉ acc.map Prod.fst := by
      intro hm
      have hd := List.disjoint_of_nodup_append (by simpa using hnd)
      exact hd hm (List.mem_cons_self _ _)
    have hwl : wire_lines ((k, v) :: ps) =
        (k ++ "=" ++ v ++ "\n") :: wire_lines ps := rfl
    have hstep : read_kv_aux ((k ++ "=" ++ v ++ "\n") :: wire_lines ps) acc =
        read_kv_aux (wire_lines ps) (dinsert acc k v) := by
      simp only [read_kv_aux, if_neg hline_ne, hstrip, if_neg hs_ne, hpart]
    rw [hwl, hstep, dinsert_append v hk_notin,
      ih (acc ++ [(k, v)]) (fun p hp => hval p (List.mem_cons_of_mem _ hp))
        (by simpa [List.append_assoc] using hnd)]
    simp

/-- Claim C6: decoding a valid wire block (key=value lines, each newline
terminated, followed by a blank line; keys free of `=` and newlines,
values free of newlines, keys distinct) and re-encoding the resulting
mapping reproduces the block byte for byte — key set and every value
preserved exactly, embedded `=` characters in values included. -/
theorem decode_encode_round_trip_c6 (ps : KV)
    (hval : ∀ p ∈ ps, '=' ∉ p.1.data ∧ '\n' ∉ p.1.data ∧ '\n' ∉ p.2.data)
    (hnd : (ps.map Prod.fst).Nodup) :
    read_kv (wire_lines ps) = ps ∧
      write_close_kv (read_kv (wire_lines ps)) = String.join (wire_lines ps) := by
  have h1 : read_kv (wire_lines ps) = ps := by
    have := read_kv_aux_wire ps [] hval (by simpa using hnd)
    simpa [read_kv] using this
  refine ⟨h1, ?_⟩
  rw [h1, write_close_kv, wire_lines, join_concat]
  rfl

/-- Witness for C6: a two-pair block whose second value embeds `=`. -/
theorem decode_encode_round_trip_c6_witness :
    read_kv (wire_lines [("protocol", "https"), ("host", "ex=ample.com")]) =
        [("protocol", "https"), ("host", "ex=ample.com")] ∧
      write_close_kv
          (read_kv (wire_lines [("protocol", "https"), ("host", "ex=ample.com")])) =
        String.join (wire_lines [("protocol", "https"), ("host", "ex=ample.com")]) :=
  decode_encode_round_trip_c6 _ (by decide) (by decide)
